import Mathlib

/-!
Verification development for the Layr8 Go SDK session core.

The Go source is shallowly embedded: JSON documents are modelled by an
inductive `Json` value type (byte-level serialisation is the identity on
this representation), Go structs become Lean structures with the source's
field names where Lean permits, and the stateful routines of
`client.go` / `channel.go` / `reconnect.go` become pure functions that
take their inputs (including the outcome of effects such as the handler
call or a socket write) explicitly and return the actions they perform.
-/

namespace Layr8

/-- JSON values. Numbers are modelled as integers, which covers every
numeric literal appearing in the SDK's own wire traffic. -/
inductive Json where
  | null : Json
  | bool (b : Bool) : Json
  | num (n : Int) : Json
  | str (s : String) : Json
  | arr (xs : List Json) : Json
  | obj (fields : List (String × Json)) : Json

/-- Field lookup in a JSON object field list. Later duplicates win, matching
`encoding/json`, which lets the last occurrence of a duplicated key
overwrite earlier ones. -/
def lookupField : List (String × Json) → String → Option Json
  | [], _ => none
  | (k', v) :: rest, k =>
    match lookupField rest k with
    | some r => some r
    | none => if k' = k then some v else none

/-- `encoding/json` unmarshalling of an optional field into a Go `string`:
a missing field or JSON null leaves the zero value `""`; a JSON string is
taken verbatim; any other value is a type error that aborts the whole
unmarshal. -/
def decodeStr : Option Json → Option String
  | none => some ""
  | some .null => some ""
  | some (.str s) => some s
  | some _ => none

/-- Unmarshalling a JSON array of strings into `[]string` elementwise. -/
def decodeStrings : List Json → Option (List String)
  | [] => some []
  | .str s :: rest => (decodeStrings rest).map (fun l => s :: l)
  | _ :: _ => none

/-- `encoding/json` unmarshalling of an optional field into `[]string`:
missing or null gives the nil slice (modelled `[]`), an array must contain
only strings, anything else is a type error. -/
def decodeStrList : Option Json → Option (List String)
  | none => some []
  | some .null => some []
  | some (.arr xs) => decodeStrings xs
  | some _ => none

/-- `encoding/json` unmarshalling of an optional field into a Go `bool`. -/
def decodeBool : Option Json → Option Bool
  | none => some false
  | some .null => some false
  | some (.bool b) => some b
  | some _ => none

/-- `Credential` from message.go: a sender credential from the cloud-node. -/
structure Credential where
  ID : String
  Name : String
deriving DecidableEq, Repr

/-- `MessageContext` from message.go: metadata from the cloud-node, present
on inbound messages. -/
structure MessageContext where
  Recipient : String
  Authorized : Bool
  SenderCredentials : List Credential
deriving DecidableEq, Repr

/-- `Message` from message.go. Go's `Type` field is rendered `Ty` because
`Type` is reserved in Lean; `Body any` becomes `Option Json` (`none` is the
Go nil interface); `bodyRaw json.RawMessage` becomes `Option Json` at the
value level (`none` is the nil slice); the unexported `ackFn func(id string)`
closure is modelled by the flag `ackArmed` (whether a non-nil ack function
is installed — the closure itself always sends `sendAck [id]`). -/
structure Message where
  ID : String := ""
  Ty : String := ""
  From : String := ""
  To : List String := []
  ThreadID : String := ""
  ParentThreadID : String := ""
  Body : Option Json := none
  bodyRaw : Option Json := none
  Context : Option MessageContext := none
  ackArmed : Bool := false

/-- The body bytes chosen by `marshalDIDComm`: the structured `Body` if
present, else the retained raw body, else the empty object. -/
def marshalBodyBytes (msg : Message) : Json :=
  match msg.Body with
  | some b => b
  | none =>
    match msg.bodyRaw with
    | some r => r
    | none => .obj []

/-- `marshalDIDComm` from message.go: serialises a `Message` into the
DIDComm JSON wire object `{id, type, from, to, thid?, pthid?, body}`;
`thid`/`pthid` carry `omitempty`, `to` does not. (Go's nil-vs-empty slice
distinction for `to` — null vs `[]` on the wire — is collapsed, since both
parse back to the same list.) -/
def marshalDIDComm (msg : Message) : Json :=
  .obj ([("id", Json.str msg.ID), ("type", Json.str msg.Ty),
         ("from", Json.str msg.From), ("to", Json.arr (msg.To.map Json.str))]
    ++ (if msg.ThreadID = "" then [] else [("thid", Json.str msg.ThreadID)])
    ++ (if msg.ParentThreadID = "" then [] else
          [("pthid", Json.str msg.ParentThreadID)])
    ++ [("body", marshalBodyBytes msg)])

/-- Decode of one element of `sender_credentials` (an `inboundCredential`):
the nested `credential_subject` object is flattened to `{id, name}`.
JSON null unmarshals into a Go struct as a no-op, leaving zero values. -/
def decodeCred : Json → Option Credential
  | .null => some { ID := "", Name := "" }
  | .obj fs =>
    match lookupField fs "credential_subject" with
    | none => some { ID := "", Name := "" }
    | some .null => some { ID := "", Name := "" }
    | some (.obj sf) => do
      let i ← decodeStr (lookupField sf "id")
      let n ← decodeStr (lookupField sf "name")
      some { ID := i, Name := n }
    | some _ => none
  | _ => none

def decodeCredList : List Json → Option (List Credential)
  | [] => some []
  | x :: rest => do
    let c ← decodeCred x
    let cs ← decodeCredList rest
    some (c :: cs)

/-- Decode of the optional `context` sub-object of an inbound envelope into
`*MessageContext` (outer `Option` = unmarshal success, inner = Go nil
pointer). A missing or null `sender_credentials` yields the empty list,
matching `make([]Credential, len(nil))`. -/
def parseContext : Option Json → Option (Option MessageContext)
  | none => some none
  | some .null => some none
  | some (.obj fs) => do
    let recipient ← decodeStr (lookupField fs "recipient")
    let authorized ← decodeBool (lookupField fs "authorized")
    let creds ←
      match lookupField fs "sender_credentials" with
      | none => some []
      | some .null => some []
      | some (.arr xs) => decodeCredList xs
      | some _ => none
    some (some { Recipient := recipient, Authorized := authorized,
                 SenderCredentials := creds })
  | some _ => none

/-- `json.Unmarshal` of raw bytes into `any`: absent bytes or the JSON
literal `null` leave the nil interface (`none`); any other value decodes to
itself at this representation level. -/
def nonNullJson : Option Json → Option Json
  | some .null => none
  | some v => some v
  | none => none

/-- Decode of the `plaintext` layer of an inbound envelope, following the
anonymous struct in `parseDIDComm`: string fields default to `""` when
missing, `to` to the nil slice, and `body` is retained raw
(`json.RawMessage`). The generic decoded `Body` is nil exactly when the
raw body is absent or is JSON null (`json.Unmarshal` of `null` into `any`
leaves the nil interface). -/
def parsePlaintext : Json → Option Message
  | .null => some {}
  | .obj fs => do
    let i ← decodeStr (lookupField fs "id")
    let t ← decodeStr (lookupField fs "type")
    let f ← decodeStr (lookupField fs "from")
    let recps ← decodeStrList (lookupField fs "to")
    let thid ← decodeStr (lookupField fs "thid")
    let pthid ← decodeStr (lookupField fs "pthid")
    let bodyRaw := lookupField fs "body"
    some { ID := i, Ty := t, From := f, To := recps, ThreadID := thid,
           ParentThreadID := pthid, Body := nonNullJson bodyRaw,
           bodyRaw := bodyRaw }
  | _ => none

/-- `parseDIDComm` from message.go: parses an inbound cloud-node payload
(`{context, plaintext}`) into a `Message`. A payload that is not a JSON
object (including JSON null, whose zero-valued envelope leaves `Plaintext`
nil and fails the second unmarshal), a missing `plaintext` field, or a type
error in either layer yields a parse failure (`none`). -/
def parseDIDComm (data : Json) : Option Message :=
  match data with
  | .obj fs => do
    let ctx ← parseContext (lookupField fs "context")
    let pt ← lookupField fs "plaintext"
    let msg ← parsePlaintext pt
    some { msg with Context := ctx }
  | _ => none

/-- The broker's inbound wrapper around a plaintext DIDComm object, with an
absent (null) context layer. -/
def wrapInbound (pt : Json) : Json :=
  .obj [("context", Json.null), ("plaintext", pt)]

/-- `Message.Ack` from message.go, as the list of ack-id batches it hands to
`transport.sendAck`: the armed closure sends `[id]`; with no ack function
installed the call is a no-op (and, being a total function, cannot fail). -/
def MessageAck (m : Message) : List (List String) :=
  if m.ackArmed then [[m.ID]] else []

/-- `ErrorKind` from the repository's error classification code (the
revision staged alongside channel.go): the closed set of asynchronous SDK
error kinds, also exercised by the repository's tests. -/
inductive ErrorKind where
  | ErrParseFailure
  | ErrNoHandler
  | ErrHandlerPanic
  | ErrServerReject
  | ErrTransportWrite
deriving DecidableEq, Repr

/-- `handlerEntry` from handler.go, minus the function pointer (a handler's
behaviour is supplied to `runHandler` as an explicit outcome). -/
structure handlerEntry where
  manualAck : Bool
deriving DecidableEq, Repr

/-- The handler registry's map from exact message-type URI to entry. -/
abbrev Registry := List (String × handlerEntry)

/-- Association-list lookup (first match), used for every string-keyed map
in the embedding. -/
def alookup {β : Type} : List (String × β) → String → Option β
  | [], _ => none
  | (k', v) :: rest, k => if k' = k then some v else alookup rest k

/-- Remove every pair whose key equals `k` (map-style deletion). -/
def afilterNe {β : Type} : List (String × β) → String → List (String × β)
  | [], _ => []
  | (k', v) :: rest, k =>
    if k' = k then afilterNe rest k else (k', v) :: afilterNe rest k

/-- `handlerRegistry.register` from handler.go: fails when a handler is
already present for the exact type, otherwise inserts. -/
def registerHandler (reg : Registry) (msgType : String) (e : handlerEntry) :
    Option Registry :=
  match alookup reg msgType with
  | some _ => none
  | none => some (reg ++ [(msgType, e)])

/-- The correlation table `Client.pending : sync.Map` — thread-id keyed,
holding single-capacity response channels. A slot's value is the channel's
content: `none` while the waiting `Request` has not yet received anything. -/
abbrev Table := List (String × Option Message)

/-- `sync.Map.Store`: insert or overwrite. -/
def storeSlot (t : Table) (k : String) (v : Option Message) : Table :=
  if (alookup t k).isSome then
    t.map (fun p => if p.1 = k then (k, v) else p)
  else
    t ++ [(k, v)]

/-- `sync.Map.Delete`: remove the key if present. -/
def deleteSlot (t : Table) (k : String) : Table :=
  afilterNe t k

/-- `sync.Map.LoadAndDelete`: atomically look the key up and remove it.
The atomicity of the Go primitive is modelled by this being a single
operation returning both the loaded value and the updated table. -/
def loadAndDelete (t : Table) (k : String) : Option (Option Message) × Table :=
  match alookup t k with
  | none => (none, t)
  | some v => (some v, deleteSlot t k)

/-- The outcome of `Client.handleInboundMessage` on one inbound payload:
which path the message took. `parseFailure` and `noHandler` report an
asynchronous `SDKError` of the corresponding kind to the error sink;
`delivered` hands the message to the correlation slot for `tid` (`accepted`
is whether the buffered channel had room — the non-blocking send);
`dispatched` spawns `runHandler` on `msg` (whose `ackArmed` flag records
the armed manual-ack closure) after sending an immediate ack iff `ackSent`. -/
inductive RouteResult where
  | parseFailure
  | delivered (tid : String) (msg : Message) (accepted : Bool)
  | noHandler (id ty fro : String)
  | dispatched (entry : handlerEntry) (msg : Message) (ackSent : Bool)

/-- The handler-routing tail of `Client.handleInboundMessage` (registry
lookup, auto-ack vs manual-ack arming, handler dispatch). -/
def routeToHandler (reg : Registry) (msg : Message) : RouteResult :=
  match alookup reg msg.Ty with
  | none => .noHandler msg.ID msg.Ty msg.From
  | some entry =>
    .dispatched entry { msg with ackArmed := entry.manualAck } (!entry.manualAck)

/-- `Client.handleInboundMessage` from client.go: parse; deliver to a
correlation slot when the thread id is non-empty and a slot exists
(returning before any handler lookup); otherwise fall through to handler
routing. Returns the route taken and the updated correlation table. -/
def handleInboundMessage (pend : Table) (reg : Registry) (payload : Json) :
    RouteResult × Table :=
  match parseDIDComm payload with
  | none => (.parseFailure, pend)
  | some msg =>
    if msg.ThreadID = "" then
      (routeToHandler reg msg, pend)
    else
      match loadAndDelete pend msg.ThreadID with
      | (some slot, pend') => (.delivered msg.ThreadID msg slot.isNone, pend')
      | (none, pend') => (routeToHandler reg msg, pend')

/-- What a handler invocation does: `returns resp err` models
`entry.fn(msg)` returning normally with those two values, `panics` models a
panicking handler. -/
inductive HandlerOutcome where
  | returns (resp : Option Message) (err : Option String)
  | panics (v : String)

/-- The observable behaviour of `Client.runHandler`: the wire envelopes it
sends, the asynchronous SDK errors it reports to the error sink, and
whether a handler panic escaped the goroutine (Go: an unrecovered panic in
a goroutine terminates the whole process). -/
structure RunHandlerResult where
  sent : List Message
  reported : List ErrorKind
  panicEscapes : Option String

/-- The tail of `Client.sendMessage` that fills `ID` (freshly generated)
and `From` (session identity) when absent, before marshalling. -/
def sendMessageFill (agentDID freshID : String) (m : Message) : Message :=
  { m with
    ID := if m.ID = "" then freshID else m.ID,
    From := if m.From = "" then agentDID else m.From }

/-- The response auto-fill block of `Client.runHandler`: originator from the
session identity when absent; recipients from the original's originator when
empty — but only when the original's originator is itself non-empty;
thread-id from the original's thread-id, falling back to the original's id. -/
def autofillResponse (agentDID : String) (original resp : Message) : Message :=
  { resp with
    From := if resp.From = "" then agentDID else resp.From,
    To := if resp.To = [] ∧ original.From ≠ "" then [original.From] else resp.To,
    ThreadID :=
      if resp.ThreadID = "" ∧ original.ThreadID ≠ "" then original.ThreadID
      else if resp.ThreadID = "" then original.ID
      else resp.ThreadID }

/-- The problem-report envelope built by `Client.sendProblemReport` for a
handler error with message `e`. -/
def problemReportFor (original : Message) (e : String) : Message :=
  { Ty := "https://didcomm.org/report-problem/2.0/problem-report",
    To := [original.From],
    ThreadID := if original.ThreadID = "" then original.ID else original.ThreadID,
    Body := some (.obj [("code", .str "e.p.xfer.cant-process"),
                        ("comment", .str e)]) }

/-- `Client.runHandler` from client.go (together with `sendProblemReport`):
a non-nil error sends exactly one problem report; otherwise a non-nil
response is auto-filled and sent; otherwise nothing is sent. There is no
`recover` in the function, so a handler panic escapes; no SDK error is
reported on any path. -/
def runHandler (agentDID freshID : String) (msg : Message)
    (outcome : HandlerOutcome) : RunHandlerResult :=
  match outcome with
  | .panics v => { sent := [], reported := [], panicEscapes := some v }
  | .returns _ (some e) =>
    { sent := [sendMessageFill agentDID freshID (problemReportFor msg e)],
      reported := [], panicEscapes := none }
  | .returns (some resp) none =>
    { sent := [sendMessageFill agentDID freshID
                 (autofillResponse agentDID msg resp)],
      reported := [], panicEscapes := none }
  | .returns none none => { sent := [], reported := [], panicEscapes := none }

/-- `requestOptions` from options.go (`requestDefaults` gives `""`). -/
structure requestOptions where
  parentThreadID : String := ""
deriving DecidableEq, Repr

/-- The well-known problem-report type URI checked by `Client.Request`. -/
def problemReportURI : String :=
  "https://didcomm.org/report-problem/2.0/problem-report"

/-- `Message.UnmarshalBody` into `ProblemReportError{code, comment}`: fails
on a nil raw body; JSON null leaves the zero struct; an object decodes the
two string fields; any other value is a type error. -/
def decodeProblemReport (m : Message) : Option (String × String) :=
  match m.bodyRaw with
  | none => none
  | some .null => some ("", "")
  | some (.obj fs) => do
    let c ← decodeStr (lookupField fs "code")
    let cm ← decodeStr (lookupField fs "comment")
    some (c, cm)
  | some _ => none

/-- How the blocking phase of a `Request` call resolves: the initial send
fails, a correlated response is delivered to the slot, or the caller's
context fires first. -/
inductive ReqOutcome where
  | sendFail (e : String)
  | response (resp : Message)
  | ctxDone

inductive RequestError where
  | notConnected
  | sendError (e : String)
  | problem (code comment : String)
  | problemParseFailed
  | ctxErr
deriving DecidableEq, Repr

/-- The observable run of one `Client.Request` call: the correlation table
as it stood at the moment of the send (`none` when the call was rejected
before installing a slot), the call's return value, and the table after the
call returns. -/
structure RequestRun where
  preSend : Option Table
  result : Except RequestError Message
  final : Table

/-- `Client.Request` from client.go: reject when not connected; fill id,
originator, a fresh thread id when absent, and the parent-thread option;
install a correlation slot under the thread id *before* sending; on every
exit path the deferred delete removes the slot. (On the `response` path the
inbound routing's `LoadAndDelete` has already removed the slot; the
deferred delete is then a no-op, and `deleteSlot` of an absent key models
both orders.) A response of the problem-report type is decoded into a
remote-problem error. -/
def ClientRequest (connected : Bool) (agentDID : String) (pend : Table)
    (msg : Message) (freshID freshTid : String) (o : requestOptions)
    (oc : ReqOutcome) : RequestRun :=
  if connected = false then
    { preSend := none, result := .error .notConnected, final := pend }
  else
    let m : Message :=
      { msg with
        ID := if msg.ID = "" then freshID else msg.ID,
        From := if msg.From = "" then agentDID else msg.From,
        ThreadID := if msg.ThreadID = "" then freshTid else msg.ThreadID,
        ParentThreadID :=
          if o.parentThreadID ≠ "" then o.parentThreadID
          else msg.ParentThreadID }
    let pend1 := storeSlot pend m.ThreadID none
    match oc with
    | .sendFail e =>
      { preSend := some pend1, result := .error (.sendError e),
        final := deleteSlot pend1 m.ThreadID }
    | .ctxDone =>
      { preSend := some pend1, result := .error .ctxErr,
        final := deleteSlot pend1 m.ThreadID }
    | .response resp =>
      { preSend := some pend1,
        result :=
          if resp.Ty = problemReportURI then
            match decodeProblemReport resp with
            | some (c, cm) => .error (.problem c cm)
            | none => .error .problemParseFailed
          else .ok resp,
        final := deleteSlot pend1 m.ThreadID }

/-- The client's lifecycle state (`Client.connected`, `Client.closed`) plus
its handler registry. -/
structure ClientState where
  connected : Bool := false
  closed : Bool := false
  registry : Registry := []
deriving DecidableEq, Repr

inductive ClientErr where
  | alreadyConnected
  | clientClosed
  | duplicateHandler
  | connectionFailed
deriving DecidableEq, Repr

/-- `Client.Handle` from client.go: rejected with `ErrAlreadyConnected`
while `connected` is set, otherwise delegated to the registry, which
rejects exact duplicates. -/
def ClientHandle (st : ClientState) (msgType : String) (e : handlerEntry) :
    Except ClientErr ClientState :=
  if st.connected then .error .alreadyConnected
  else
    match registerHandler st.registry msgType e with
    | none => .error .duplicateHandler
    | some r => .ok { st with registry := r }

/-- `Client.Connect` from client.go: rejected when already connected or
closed; a transport failure (`transportOk = false`) leaves the state
unchanged; success sets `connected`. -/
def ClientConnect (st : ClientState) (transportOk : Bool) :
    Except ClientErr ClientState :=
  if st.connected then .error .alreadyConnected
  else if st.closed then .error .clientClosed
  else if transportOk then .ok { st with connected := true }
  else .error .connectionFailed

/-- `Client.Close` from client.go: idempotent; sets `closed` and clears
`connected`. -/
def ClientClose (st : ClientState) : ClientState :=
  if st.closed then st else { st with closed := true, connected := false }

/-- A parsed URL, as far as `phoenixChannel.connect` manipulates one:
`net/url`'s scheme, host, path and query. -/
structure URL where
  scheme : String
  host : String
  path : String
  query : List (String × String)
deriving DecidableEq, Repr

/-- `url.Values.Set`: replace any existing values for the key. -/
def setQueryParam (q : List (String × String)) (k v : String) :
    List (String × String) :=
  afilterNe q k ++ [(k, v)]

def getQueryParam (q : List (String × String)) (k : String) : Option String :=
  alookup q k

/-- Character-wise prefix removal, the semantics of Go's
`strings.CutPrefix(s, prefix)`: `some rest` when the first list is a
prefix of the second (leaving the remainder), `none` otherwise. (Go
compares bytes; for the ASCII scheme prefixes involved here the
character-level comparison is identical.) -/
def cutPrefixList : List Char → List Char → Option (List Char)
  | [], s => some s
  | _ :: _, [] => none
  | p :: ps, c :: cs => if p = c then cutPrefixList ps cs else none

/-- The URL-normalisation stage of `resolveConfig` (config source, later
revision), which runs inside `NewClient` — before `Connect` hands the URL
to the channel transport: `https://…` is rewritten to `wss://…` and
`http://…` to `ws://…` via `strings.CutPrefix`; any other URL is left
unchanged. -/
def normalizeNodeURL (s : String) : String :=
  match cutPrefixList "https://".data s.data with
  | some rest => ⟨"wss://".data ++ rest⟩
  | none =>
    match cutPrefixList "http://".data s.data with
    | some rest => ⟨"ws://".data ++ rest⟩
    | none => s

/-- The URL query-building stage of `phoenixChannel.connect` from
channel.go, applied to the (already `resolveConfig`-normalised) node URL:
the query gains `api_key=<credential>` and `vsn=2.0.0` before dialing. -/
def phoenixConnectURL (u : URL) (apiKey : String) : URL :=
  { u with query := setQueryParam (setQueryParam u.query "api_key" apiKey)
                      "vsn" "2.0.0" }

/-- `phoenixMessage` from channel.go (wire form: the Phoenix V2 five-element
array `[join_ref, ref, topic, event, payload]`). -/
structure phoenixMessage where
  JoinRef : String := ""
  Ref : String := ""
  Topic : String
  Event : String
  Payload : Json

/-- Observable actions of the channel transport's internal tasks. -/
inductive WireAction where
  | write (f : phoenixMessage)
  | deliver (payload : Json)
  | joinReply (payload : Json)
  | invokeDisconnect (reason : String)

/-- The heartbeat interval, in seconds, from
`time.NewTicker(30 * time.Second)` in `phoenixChannel.heartbeatLoop`. -/
def heartbeatIntervalSeconds : Nat := 30

/-- One observed event in a run of the heartbeat loop: the `done` channel
closes, or the ticker fires and the subsequent `writeMsg` either succeeds
or fails. -/
inductive HBEvent where
  | done
  | tick (writeOk : Bool)

/-- `phoenixChannel.heartbeatLoop` from channel.go: on every ticker fire it
allocates the next ref and writes a frame on topic `"phoenix"` with event
`"heartbeat"`; when the write fails, or `done` closes, the loop returns —
it performs no other action (in particular it never invokes the disconnect
callback). -/
def heartbeatLoop (refCounter : Nat) : List HBEvent → List WireAction
  | [] => []
  | .done :: _ => []
  | .tick ok :: rest =>
    let r := refCounter + 1
    if ok then
      .write { Ref := toString r, Topic := "phoenix", Event := "heartbeat",
               Payload := .obj [] } :: heartbeatLoop r rest
    else []

/-- `phoenixChannel.handleInbound` from channel.go: `phx_reply` frames
matching the stored join ref complete the join handshake (when a join is
pending), `message` frames are forwarded to the upper callback, and
`phx_error` / `phx_close` invoke the disconnect callback. -/
def channelHandleInbound (joinRef : String) (joinPending : Bool)
    (m : phoenixMessage) : List WireAction :=
  if m.Event = "phx_reply" then
    if joinPending ∧ m.Ref = joinRef then [.joinReply m.Payload] else []
  else if m.Event = "message" then [.deliver m.Payload]
  else if m.Event = "phx_error" ∨ m.Event = "phx_close" then
    [.invokeDisconnect ("channel " ++ m.Event)]
  else []

/-- `backoff` from reconnect.go. Delays are `time.Duration` (an integer
count of nanoseconds); the values the claims exercise are nowhere near the
64-bit range, so the embedding uses unbounded integers. -/
structure backoff where
  initial : Int
  max : Int
  current : Int
deriving DecidableEq, Repr

def newBackoff (initial max : Int) : backoff :=
  { initial := initial, max := max, current := initial }

/-- `backoff.next` from reconnect.go: return the current delay, double the
stored one and clamp both at the cap. -/
def backoffNext (b : backoff) : Int × backoff :=
  let d := b.current
  let cur := b.current * 2
  let cur := if cur > b.max then b.max else cur
  let d := if d > b.max then b.max else d
  (d, { b with current := cur })

/-- `backoff.reset` from reconnect.go. -/
def backoffReset (b : backoff) : backoff :=
  { b with current := b.initial }

/-- Run `next()` a given number of times, collecting the returned delays. -/
def backoffRun (b : backoff) : Nat → List Int × backoff
  | 0 => ([], b)
  | n + 1 =>
    let (d, b') := backoffNext b
    let (ds, b'') := backoffRun b' n
    (d :: ds, b'')

/-- `time.Second` in nanoseconds. -/
def second : Int := 1000000000

/-! Helper lemmas about association-list lookup, shared across claims. -/

theorem alookup_append_of_none {β : Type} (l₁ l₂ : List (String × β))
    (k : String) (h : alookup l₁ k = none) :
    alookup (l₁ ++ l₂) k = alookup l₂ k := by
  induction l₁ with
  | nil => rfl
  | cons p rest ih =>
    by_cases hpk : p.1 = k
    · simp [alookup, hpk] at h
    · simp [alookup, hpk] at h ⊢
      exact ih h

theorem alookup_append_of_some {β : Type} (l₁ l₂ : List (String × β))
    (k : String) (v : β) (h : alookup l₁ k = some v) :
    alookup (l₁ ++ l₂) k = some v := by
  induction l₁ with
  | nil => simp [alookup] at h
  | cons p rest ih =>
    by_cases hpk : p.1 = k
    · simp [alookup, hpk] at h ⊢
      exact h
    · simp [alookup, hpk] at h ⊢
      exact ih h

theorem alookup_afilterNe_self {β : Type} (l : List (String × β)) (k : String) :
    alookup (afilterNe l k) k = none := by
  induction l with
  | nil => rfl
  | cons p rest ih =>
    by_cases hpk : p.1 = k
    · simpa [afilterNe, hpk] using ih
    · simpa [afilterNe, alookup, hpk] using ih

theorem alookup_afilterNe_other {β : Type} (l : List (String × β))
    (k k' : String) (h : k ≠ k') :
    alookup (afilterNe l k') k = alookup l k := by
  induction l with
  | nil => rfl
  | cons p rest ih =>
    by_cases hpk : p.1 = k'
    · have hk : ¬ k' = k := fun he => h he.symm
      simp [afilterNe, alookup, hpk, hk, ih]
    · simp [afilterNe, alookup, hpk, ih]

theorem alookup_storeSlot_self (t : Table) (k : String) (v : Option Message) :
    alookup (storeSlot t k v) k = some v := by
  unfold storeSlot
  split
  case isTrue h =>
    induction t with
    | nil => simp [alookup] at h
    | cons p rest ih =>
      by_cases hpk : p.1 = k
      · show alookup ((if p.1 = k then (k, v) else p) :: _) k = some v
        rw [if_pos hpk]
        simp [alookup]
      · show alookup ((if p.1 = k then (k, v) else p) :: _) k = some v
        rw [if_neg hpk]
        simp only [alookup, hpk, if_neg] at h
        simpa [alookup, hpk] using ih h
  case isFalse h =>
    have hn : alookup t k = none := by
      cases ht : alookup t k with
      | none => rfl
      | some w => rw [ht] at h; simp at h
    rw [alookup_append_of_none _ _ _ hn]
    simp [alookup]

theorem alookup_deleteSlot_self (t : Table) (k : String) :
    alookup (deleteSlot t k) k = none :=
  alookup_afilterNe_self t k

/-! Claim theorems. -/

/-- Claim C9: for a backoff with initial delay 1s and cap 30s, the first
seven `next()` values are 1, 2, 4, 8, 16, 30, 30 seconds, and after
`reset()` the next value is again 1s. -/
theorem backoff_sequence_1s_cap_30s :
    (backoffRun (newBackoff second (30 * second)) 7).1 =
      [second, 2 * second, 4 * second, 8 * second, 16 * second,
       30 * second, 30 * second] ∧
    (backoffNext (backoffReset
        (backoffRun (newBackoff second (30 * second)) 7).2)).1 = second := by
  constructor <;> rfl

/-- Claim C6: a caller-supplied connect URL with scheme `http` is rewritten
to `ws`, and one with scheme `https` to `wss`, by `resolveConfig` inside
`NewClient` — so the rewrite is in place before `phoenixChannel.connect`
dials — and the dialed URL's query carries `api_key=<credential>` and
`vsn=2.0.0`. -/
theorem connect_url_scheme_and_query (rest : String) (u : URL)
    (apiKey : String) :
    normalizeNodeURL ("http://" ++ rest) = "ws://" ++ rest ∧
    normalizeNodeURL ("https://" ++ rest) = "wss://" ++ rest ∧
    getQueryParam (phoenixConnectURL u apiKey).query "api_key" = some apiKey ∧
    getQueryParam (phoenixConnectURL u apiKey).query "vsn" = some "2.0.0" := by
  refine ⟨rfl, rfl, ?_, ?_⟩
  · show alookup (setQueryParam (setQueryParam u.query "api_key" apiKey)
      "vsn" "2.0.0") "api_key" = some apiKey
    unfold setQueryParam
    have h1 : alookup (afilterNe u.query "api_key" ++ [("api_key", apiKey)])
        "api_key" = some apiKey := by
      rw [alookup_append_of_none _ _ _ (alookup_afilterNe_self _ _)]
      simp [alookup]
    rw [alookup_append_of_some _ _ _ _
      (by rw [alookup_afilterNe_other _ _ _ (by decide)]; exact h1)]
  · show alookup (setQueryParam (setQueryParam u.query "api_key" apiKey)
      "vsn" "2.0.0") "vsn" = some "2.0.0"
    unfold setQueryParam
    rw [alookup_append_of_none _ _ _ (alookup_afilterNe_self _ _)]
    simp [alookup]

/-- Claim C7 (counterexample): in a heartbeat run whose second write fails,
the loop stops — later ticks produce nothing — and the trace contains no
invocation of the disconnect callback, contradicting the claim that a
failed heartbeat write invokes it. -/
theorem heartbeat_write_failure_no_disconnect_cx :
    heartbeatLoop 0 [HBEvent.tick true, HBEvent.tick false, HBEvent.tick true] =
      [WireAction.write
        { Ref := "1", Topic := "phoenix", Event := "heartbeat",
          Payload := Json.obj [] }] ∧
    (heartbeatLoop 0
        [HBEvent.tick true, HBEvent.tick false, HBEvent.tick true]).countP
      (fun a => match a with
        | .invokeDisconnect _ => true
        | _ => false) = 0 := by
  constructor
  · show _ = _
    norm_num [heartbeatLoop]
    rfl
  · rfl

/-- Claim C7 (amended): after a successful join the heartbeat task sends a
frame every 30 seconds on topic "phoenix" with event "heartbeat"; a failed
write terminates the task without itself invoking the disconnect callback —
disconnect is surfaced by the read path, whose `phx_error`/`phx_close`
handling does invoke it. -/
theorem heartbeat_frames_amended (r : Nat) (evs : List HBEvent) :
    heartbeatIntervalSeconds = 30 ∧
    (∀ a ∈ heartbeatLoop r evs, ∃ f, a = WireAction.write f ∧
      f.Topic = "phoenix" ∧ f.Event = "heartbeat") ∧
    (∀ jr t p, channelHandleInbound jr true
        { Topic := t, Event := "phx_error", Payload := p } =
      [.invokeDisconnect "channel phx_error"]) ∧
    (∀ jr t p, channelHandleInbound jr true
        { Topic := t, Event := "phx_close", Payload := p } =
      [.invokeDisconnect "channel phx_close"]) := by
  refine ⟨rfl, ?_, fun jr t p => rfl, fun jr t p => rfl⟩
  induction evs generalizing r with
  | nil => intro a ha; simp [heartbeatLoop] at ha
  | cons e rest ih =>
    intro a ha
    match e with
    | .done => simp [heartbeatLoop] at ha
    | .tick true =>
      simp only [heartbeatLoop] at ha
      rcases List.mem_cons.mp ha with h | h
      · exact ⟨_, h, rfl, rfl⟩
      · exact ih (r + 1) a h
    | .tick false => simp [heartbeatLoop] at ha

/-- Claim C7 witness for `heartbeat_frames_amended`. -/
theorem heartbeat_frames_amended_witness :
    ∃ f, WireAction.write
        { Ref := "1", Topic := "phoenix", Event := "heartbeat",
          Payload := Json.obj [] } = WireAction.write f ∧
      f.Topic = "phoenix" ∧ f.Event = "heartbeat" :=
  (heartbeat_frames_amended 0 [HBEvent.tick true]).2.1 _
    (by simp [heartbeatLoop]; rfl)

/-- Claim C8 (counterexample): connect then close; the session has been
connected, yet a subsequent `Handle` succeeds, because `Close` clears the
`connected` flag and `Handle` checks only that flag. -/
theorem handle_after_close_succeeds_cx :
    ClientConnect {} true =
      .ok { connected := true, closed := false, registry := [] } ∧
    ClientClose { connected := true, closed := false, registry := [] } =
      { connected := false, closed := true, registry := [] } ∧
    ClientHandle { connected := false, closed := true, registry := [] }
        "https://layr8.io/protocols/echo/1.0/request" { manualAck := false } =
      .ok { connected := false, closed := true,
            registry := [("https://layr8.io/protocols/echo/1.0/request",
                          { manualAck := false })] } := by
  exact ⟨rfl, rfl, rfl⟩

/-- Claim C8 (amended): while `connected` is set, every `Handle` call fails
with the already-connected sentinel; while it is clear (before `Connect`,
or again after `Close`, which resets the flag), `Handle` fails exactly when
the type URI is already registered and otherwise succeeds, adding the
entry. -/
theorem handle_gating_amended (st : ClientState) (ty : String)
    (e : handlerEntry) :
    (st.connected = true → ClientHandle st ty e = .error .alreadyConnected) ∧
    (st.connected = false →
      ((alookup st.registry ty = none →
          ClientHandle st ty e =
            .ok { st with registry := st.registry ++ [(ty, e)] }) ∧
       (∀ e', alookup st.registry ty = some e' →
          ClientHandle st ty e = .error .duplicateHandler))) := by
  constructor
  · intro h
    simp [ClientHandle, h]
  · intro h
    constructor
    · intro hn
      simp [ClientHandle, h, registerHandler, hn]
    · intro e' hs
      simp [ClientHandle, h, registerHandler, hs]

/-- Claim C8 witness for `handle_gating_amended`. -/
theorem handle_gating_amended_witness :
    ClientHandle { connected := true, closed := false, registry := [] }
        "https://ex/t/1.0/m" { manualAck := false } =
      .error .alreadyConnected ∧
    ClientHandle { connected := false, closed := false, registry := [] }
        "https://ex/t/1.0/m" { manualAck := false } =
      .ok { connected := false, closed := false,
            registry := [("https://ex/t/1.0/m", { manualAck := false })] } :=
  ⟨(handle_gating_amended
      { connected := true, closed := false, registry := [] }
      "https://ex/t/1.0/m" { manualAck := false }).1 rfl,
   ((handle_gating_amended
      { connected := false, closed := false, registry := [] }
      "https://ex/t/1.0/m" { manualAck := false }).2 rfl).1 rfl⟩

/-- Claim C1: `Client.runHandler` contains no `recover`, so a panicking
handler's panic escapes the spawned goroutine (in Go this terminates the
whole process, killing the inbound pipeline), no envelope is sent, and —
contrary to the spec — no asynchronous SDK error of kind
`ErrHandlerPanic` is reported. -/
theorem runHandler_panic_escapes (agentDID freshID : String) (msg : Message)
    (v : String) :
    runHandler agentDID freshID msg (.panics v) =
      { sent := [], reported := [], panicEscapes := some v } := rfl

/-- Claim C4 (counterexample): for an original message whose originator is
empty, a handler response with empty recipients is sent with recipients
left empty — not `[original's originator]` as the claim states — because
the auto-fill in `runHandler` is guarded by `msg.From != ""`. -/
theorem autofill_empty_originator_cx :
    ((runHandler "did:ex:me" "f-1"
        { ID := "m-1", Ty := "https://ex/echo/1.0/request", From := "" }
        (.returns (some { Ty := "https://ex/echo/1.0/response" }) none)).sent.map
      (fun m => m.To)) = [[]] ∧
    ([[]] : List (List String)) ≠ [[""]] := by
  exact ⟨rfl, by decide⟩

/-- Claim C4 (amended): `(nil, nil)` sends nothing; `(_, err)` sends exactly
one problem report to the original's originator, with the thread id bound
to the original's thread id (or its id) and body
`{code: "e.p.xfer.cant-process", comment: err}`; `(resp, nil)` sends
exactly one envelope carrying `resp` with originator defaulted to the
session identity, recipients defaulted to `[original's originator]` only
when both the response's recipients are empty and the original's
originator is non-empty, and thread id bound like the problem report's. -/
theorem handler_return_contract_amended (agentDID freshID : String)
    (msg : Message) :
    (runHandler agentDID freshID msg (.returns none none)).sent = [] ∧
    (∀ r e, ∃ pr,
      (runHandler agentDID freshID msg (.returns r (some e))).sent = [pr] ∧
      pr.Ty = problemReportURI ∧
      pr.To = [msg.From] ∧
      pr.ThreadID = (if msg.ThreadID = "" then msg.ID else msg.ThreadID) ∧
      pr.Body = some (.obj [("code", .str "e.p.xfer.cant-process"),
                            ("comment", .str e)]) ∧
      pr.ID = freshID) ∧
    (∀ resp, ∃ env,
      (runHandler agentDID freshID msg (.returns (some resp) none)).sent =
        [env] ∧
      env.Ty = resp.Ty ∧
      env.Body = resp.Body ∧
      env.From = (if resp.From = "" then agentDID else resp.From) ∧
      env.To = (if resp.To = [] ∧ msg.From ≠ "" then [msg.From] else resp.To) ∧
      env.ThreadID =
        (if resp.ThreadID = "" ∧ msg.ThreadID ≠ "" then msg.ThreadID
         else if resp.ThreadID = "" then msg.ID else resp.ThreadID) ∧
      env.ID = (if resp.ID = "" then freshID else resp.ID)) := by
  refine ⟨rfl, ?_, ?_⟩
  · intro r e
    cases r <;> exact ⟨_, rfl, rfl, rfl, rfl, rfl, rfl⟩
  · intro resp
    refine ⟨_, rfl, rfl, rfl, ?_, rfl, rfl, rfl⟩
    show (if (if resp.From = "" then agentDID else resp.From) = ""
            then agentDID
            else if resp.From = "" then agentDID else resp.From) =
         (if resp.From = "" then agentDID else resp.From)
    by_cases h : resp.From = ""
    · simp [h]
    · simp [h]

/-- Claim C3: every connected `Request` call installs a correlation slot
under its (possibly freshly minted) thread id before sending — the table at
the send moment holds the slot — and whatever way the call returns (send
failure, response, problem report, or context expiry), the table it leaves
behind holds no slot for that thread id. -/
theorem request_slot_lifecycle (agentDID : String) (pend : Table)
    (msg : Message) (freshID freshTid : String) (o : requestOptions)
    (oc : ReqOutcome) :
    ∃ t, (ClientRequest true agentDID pend msg freshID freshTid o oc).preSend =
        some t ∧
      alookup t (if msg.ThreadID = "" then freshTid else msg.ThreadID) =
        some none ∧
      alookup (ClientRequest true agentDID pend msg freshID freshTid o oc).final
        (if msg.ThreadID = "" then freshTid else msg.ThreadID) = none := by
  cases oc with
  | sendFail e =>
    exact ⟨_, rfl, alookup_storeSlot_self _ _ _, alookup_deleteSlot_self _ _⟩
  | ctxDone =>
    exact ⟨_, rfl, alookup_storeSlot_self _ _ _, alookup_deleteSlot_self _ _⟩
  | response resp =>
    exact ⟨_, rfl, alookup_storeSlot_self _ _ _, alookup_deleteSlot_self _ _⟩

/-- Claim C2: when an inbound payload parses to a message with a non-empty
thread id for which a correlation slot exists, `handleInboundMessage`
delivers to that slot and removes it in the same (atomic `LoadAndDelete`)
step, and its result does not depend on the handler registry at all; when
the thread id is empty or no slot exists, the message falls through to
handler routing (`routeToHandler`: dispatch, or the no-handler error path)
with the table untouched. -/
theorem inbound_correlation_first (pend : Table) (reg : Registry)
    (payload : Json) (msg : Message)
    (hp : parseDIDComm payload = some msg) :
    (∀ slot, msg.ThreadID ≠ "" → alookup pend msg.ThreadID = some slot →
      handleInboundMessage pend reg payload =
        (.delivered msg.ThreadID msg slot.isNone,
         deleteSlot pend msg.ThreadID) ∧
      (∀ reg' : Registry, handleInboundMessage pend reg' payload =
        handleInboundMessage pend reg payload)) ∧
    ((msg.ThreadID = "" ∨ alookup pend msg.ThreadID = none) →
      handleInboundMessage pend reg payload = (routeToHandler reg msg, pend)) := by
  constructor
  · intro slot hne hslot
    constructor
    · simp [handleInboundMessage, hp, hne, loadAndDelete, hslot]
    · intro reg'
      simp [handleInboundMessage, hp, hne, loadAndDelete, hslot]
  · intro hor
    rcases hor with h0 | hnone
    · simp [handleInboundMessage, hp, h0]
    · by_cases h0 : msg.ThreadID = ""
      · simp [handleInboundMessage, hp, h0]
      · simp [handleInboundMessage, hp, h0, loadAndDelete, hnone]

/-- Claim C2 witness for `inbound_correlation_first`: a concrete inbound
payload with thread id `t-1` and a waiting slot is delivered and the slot
removed. -/
theorem inbound_correlation_first_witness :
    handleInboundMessage [("t-1", (none : Option Message))] []
        (wrapInbound (Json.obj [("id", Json.str "m-1"),
          ("type", Json.str "T"), ("thid", Json.str "t-1")])) =
      (RouteResult.delivered "t-1"
        { ID := "m-1", Ty := "T", ThreadID := "t-1" } true, []) :=
  And.left ((inbound_correlation_first [("t-1", none)] []
    (wrapInbound (Json.obj [("id", Json.str "m-1"),
      ("type", Json.str "T"), ("thid", Json.str "t-1")]))
    { ID := "m-1", Ty := "T", ThreadID := "t-1" } rfl).1 none (by decide) rfl)

theorem parsePlaintext_not_armed (pt : Json) (m : Message)
    (h : parsePlaintext pt = some m) : m.ackArmed = false := by
  match pt with
  | .null =>
    simp only [parsePlaintext, Option.some.injEq] at h
    subst h; rfl
  | .obj fs =>
    simp only [parsePlaintext, Option.bind_eq_bind, Option.bind_eq_some,
      Option.some.injEq] at h
    obtain ⟨i, hi, t, ht, f, hf, r, hr, th, hth, pth, hpth, hm⟩ := h
    subst hm; rfl
  | .bool b => simp [parsePlaintext] at h
  | .num n => simp [parsePlaintext] at h
  | .str s => simp [parsePlaintext] at h
  | .arr xs => simp [parsePlaintext] at h

theorem parseDIDComm_not_armed (payload : Json) (m : Message)
    (h : parseDIDComm payload = some m) : m.ackArmed = false := by
  match payload with
  | .obj fs =>
    simp only [parseDIDComm, Option.bind_eq_bind, Option.bind_eq_some,
      Option.some.injEq] at h
    obtain ⟨ctx, hctx, pt, hpt, mm, hmm, hm⟩ := h
    subst hm
    exact parsePlaintext_not_armed pt mm hmm
  | .null => simp [parseDIDComm] at h
  | .bool b => simp [parseDIDComm] at h
  | .num n => simp [parseDIDComm] at h
  | .str s => simp [parseDIDComm] at h
  | .arr xs => simp [parseDIDComm] at h

/-- Claim C10: `Ack()` with no ack function armed is a total no-op sending
no ack batch; every parsed inbound message starts unarmed (so correlated
responses — which are parsed messages handed to the slot unchanged — and
caller-built messages, whose flag defaults to unset, are unarmed); routing
arms the closure exactly on the manual-ack dispatch path. -/
theorem ack_unarmed_noop :
    (∀ m : Message, m.ackArmed = false → MessageAck m = []) ∧
    (∀ payload msg, parseDIDComm payload = some msg → msg.ackArmed = false) ∧
    (∀ pend reg payload e m ack,
      (handleInboundMessage pend reg payload).1 = .dispatched e m ack →
      m.ackArmed = e.manualAck) ∧
    (∀ pend reg payload tid m acc,
      (handleInboundMessage pend reg payload).1 = .delivered tid m acc →
      m.ackArmed = false) := by
  refine ⟨?_, ?_, ?_, ?_⟩
  · intro m h
    simp [MessageAck, h]
  · exact fun payload msg h => parseDIDComm_not_armed payload msg h
  · intro pend reg payload e m ack h
    unfold handleInboundMessage at h
    cases hp : parseDIDComm payload with
    | none => rw [hp] at h; simp at h
    | some msg =>
      rw [hp] at h
      dsimp only at h
      have harm := parseDIDComm_not_armed payload msg hp
      by_cases h0 : msg.ThreadID = ""
      · rw [if_pos h0] at h
        unfold routeToHandler at h
        cases hr : alookup reg msg.Ty with
        | none => rw [hr] at h; simp at h
        | some entry =>
          rw [hr] at h
          simp only at h
          injection h with h1 h2 h3
          subst h1; subst h2; rfl
      · rw [if_neg h0] at h
        rcases hld : loadAndDelete pend msg.ThreadID with ⟨os, pend'⟩
        rw [hld] at h
        cases os with
        | some slot => simp at h
        | none =>
          simp only at h
          unfold routeToHandler at h
          cases hr : alookup reg msg.Ty with
          | none => rw [hr] at h; simp at h
          | some entry =>
            rw [hr] at h
            simp only at h
            injection h with h1 h2 h3
            subst h1; subst h2; rfl
  · intro pend reg payload tid m acc h
    unfold handleInboundMessage at h
    cases hp : parseDIDComm payload with
    | none => rw [hp] at h; simp at h
    | some msg =>
      rw [hp] at h
      dsimp only at h
      have harm := parseDIDComm_not_armed payload msg hp
      by_cases h0 : msg.ThreadID = ""
      · rw [if_pos h0] at h
        unfold routeToHandler at h
        cases hr : alookup reg msg.Ty with
        | none => rw [hr] at h; simp at h
        | some entry => rw [hr] at h; simp at h
      · rw [if_neg h0] at h
        rcases hld : loadAndDelete pend msg.ThreadID with ⟨os, pend'⟩
        rw [hld] at h
        cases os with
        | some slot =>
          simp only at h
          injection h with h1 h2 h3
          subst h2
          exact harm
        | none =>
          simp only at h
          unfold routeToHandler at h
          cases hr : alookup reg msg.Ty with
          | none => rw [hr] at h; simp at h
          | some entry => rw [hr] at h; simp at h

theorem decodeStrings_map_str (l : List String) :
    decodeStrings (l.map Json.str) = some l := by
  induction l with
  | nil => rfl
  | cons s rest ih => simp [decodeStrings, ih]

/-- Claim C5 (counterexample): a message with no body does not round-trip
equal on body — it is encoded with the mandatory `body: {}` and parses back
with a non-nil empty-object body. -/
theorem didcomm_roundtrip_nil_body_cx :
    parseDIDComm (wrapInbound (marshalDIDComm { ID := "m-1" })) =
      some { ID := "m-1", Body := some (Json.obj []),
             bodyRaw := some (Json.obj []) } ∧
    ({ ID := "m-1" } : Message).Body = none ∧
    (some (Json.obj []) : Option Json) ≠ none := by
  refine ⟨rfl, rfl, fun h => Option.noConfusion h⟩

/-- Claim C5 (amended): encoding an outbound envelope and parsing it back
through the broker's context/plaintext wrapper round-trips id, type, from,
to, thread-id and parent-thread-id exactly, preserves the encoded body
bytes verbatim, and round-trips the structured body whenever the original
message carries a (non-null) body; a body-less message parses back with an
empty-object body. -/
theorem didcomm_roundtrip_amended (m : Message) :
    ∃ m', parseDIDComm (wrapInbound (marshalDIDComm m)) = some m' ∧
      m'.ID = m.ID ∧ m'.Ty = m.Ty ∧ m'.From = m.From ∧ m'.To = m.To ∧
      m'.ThreadID = m.ThreadID ∧ m'.ParentThreadID = m.ParentThreadID ∧
      m'.bodyRaw = some (marshalBodyBytes m) ∧
      (∀ b, m.Body = some b → b ≠ Json.null → m'.Body = some b) := by
  have key : parseDIDComm (wrapInbound (marshalDIDComm m)) = some
      { ID := m.ID, Ty := m.Ty, From := m.From, To := m.To,
        ThreadID := m.ThreadID, ParentThreadID := m.ParentThreadID,
        Body := nonNullJson (some (marshalBodyBytes m)),
        bodyRaw := some (marshalBodyBytes m), Context := none,
        ackArmed := false } := by
    by_cases hT : m.ThreadID = "" <;> by_cases hP : m.ParentThreadID = "" <;>
      simp [marshalDIDComm, wrapInbound, parseDIDComm, parsePlaintext,
        parseContext, lookupField, decodeStr, decodeStrList,
        decodeStrings_map_str, hT, hP]
  refine ⟨_, key, rfl, rfl, rfl, rfl, ?_, ?_, rfl, ?_⟩
  · rfl
  · rfl
  · intro b hb hnull
    show nonNullJson (some (marshalBodyBytes m)) = some b
    rw [show marshalBodyBytes m = b by simp [marshalBodyBytes, hb]]
    cases b with
    | null => exact absurd rfl hnull
    | bool x => rfl
    | num x => rfl
    | str x => rfl
    | arr x => rfl
    | obj x => rfl

/-- Claim C5 witness for `didcomm_roundtrip_amended`: a concrete message
with a structured body round-trips on every compared field including the
body. -/
theorem didcomm_roundtrip_amended_witness :
    ∃ m', parseDIDComm (wrapInbound (marshalDIDComm
        { ID := "m-1", Ty := "T", From := "did:a", To := ["did:b"],
          ThreadID := "t-1",
          Body := some (Json.obj [("content", Json.str "hi")]) })) =
      some m' ∧
      m'.ID = "m-1" ∧ m'.Body = some (Json.obj [("content", Json.str "hi")]) := by
  obtain ⟨m', hp, hid, _, _, _, _, _, _, hbody⟩ :=
    didcomm_roundtrip_amended
      { ID := "m-1", Ty := "T", From := "did:a", To := ["did:b"],
        ThreadID := "t-1",
        Body := some (Json.obj [("content", Json.str "hi")]) }
  exact ⟨m', hp, hid, hbody _ rfl (fun h => Json.noConfusion h)⟩

/-- Claim C10 witness for `ack_unarmed_noop`: a caller-built message with no
armed ack function acks to nothing, and a concrete parsed message is
unarmed. -/
theorem ack_unarmed_noop_witness :
    MessageAck { ID := "m-1" } = [] ∧
    ({ ID := "m-1", Ty := "T" } : Message).ackArmed = false :=
  ⟨ack_unarmed_noop.1 { ID := "m-1" } rfl,
   ack_unarmed_noop.2.1
     (wrapInbound (Json.obj [("id", Json.str "m-1"), ("type", Json.str "T")]))
     { ID := "m-1", Ty := "T" } rfl⟩

end Layr8
